import Mathlib

/-!
Verification of the scenario execution engine and testing-agent turn protocol
of the scenario-go library, as a shallow embedding in Lean 4.

The embedding follows the Go sources:
  * message.go      : roles, messages, tools
  * result.go       : the Result record and its three partial constructors
  * scenario.go     : the engine (Run and its turn loop)
  * the testing-agent file : GenerateNextMessage, extractFinishTestParams,
    extractStringArray, the prompt construction and the role-swap loop

Wall-clock durations (TotalDurationNSec, AgentDurationNSec) are not modelled:
they are real-time measurements with no counterpart in a pure embedding, and
no verified property constrains their values.
-/

namespace ScenarioGo

/-! ## Go dynamic values

Model-generated JSON arrives in Go as untyped `any` values
(`map[string]any`, `[]any`, `[]string`, strings, numbers, booleans, nil).
Go maps are modelled as association lists looked up by key.
-/

inductive GoValue where
  | vstring (s : String)
  | vint (n : Int)
  | vbool (b : Bool)
  | vnil
  | varr (xs : List GoValue)
  | vstrarr (xs : List String)
  | vmap (entries : List (String × GoValue))

/-- Lookup in a Go `map[string]any`, modelled as first-match association-list
lookup (Go map keys are unique, so first-match agrees with map indexing). -/
def lookupKey : List (String × GoValue) → String → Option GoValue
  | [], _ => none
  | (k, v) :: rest, key => if k = key then some v else lookupKey rest key

/-! ## Message model (message.go)

`MessageRole` and `ToolType` are Go string types; we keep them as strings with
the source's named constants so that unknown role strings remain expressible,
exactly as in Go.
-/

abbrev MessageRole := String

def MessageRoleUser : MessageRole := "user"

def MessageRoleAssistant : MessageRole := "assistant"

def MessageRoleSystem : MessageRole := "system"

def MessageRoleDeveloper : MessageRole := "developer"

abbrev ToolType := String

def ToolTypeFunction : ToolType := "function"

/-- A conversation message. The third field is the message's tool-call list
(`[]any` in the source); the testing agent's role-swap loop skips messages for
which it is non-empty. -/
structure Message where
  role : MessageRole
  content : String
  toolCalls : List GoValue := []

/-! ## Result model (result.go) -/

/-- The result of a scenario. Duration fields are omitted (see the module
comment); all other fields follow the Go struct, with Go nil slices rendered
as empty lists. -/
structure Result where
  Success : Bool
  Conversation : List Message := []
  Reasoning : String := ""
  MetCriteria : List String := []
  UnmetCriteria : List String := []
  TriggeredFailures : List String := []

def NewSuccessPartialResult (conversation : List Message) (reasoning : String)
    (metCriteria : List String) : Result :=
  { Success := true
    Conversation := conversation
    Reasoning := reasoning
    MetCriteria := metCriteria }

def NewFailurePartialResult (conversation : List Message) (reasoning : String)
    (metCriteria unmetCriteria triggeredFailures : List String) : Result :=
  { Success := false
    Conversation := conversation
    Reasoning := reasoning
    MetCriteria := metCriteria
    UnmetCriteria := unmetCriteria
    TriggeredFailures := triggeredFailures }

def NewInconclusivePartialResult (conversation : List Message) (reasoning : String)
    (metCriteria unmetCriteria triggeredFailures : List String) : Result :=
  { Success := false
    Conversation := conversation
    Reasoning := reasoning
    MetCriteria := metCriteria
    UnmetCriteria := unmetCriteria
    TriggeredFailures := triggeredFailures }

/-! ## Verdict-argument extraction (extractStringArray, extractFinishTestParams) -/

/-- The `[]any` branch of extractStringArray: walk the slice building a string
slice, failing at the first element that is not a string, with the element's
index in the error message (the Go loop returns at the first mismatch). -/
def convertAnySlice (key : String) : List GoValue → Nat → Except String (List String)
  | [], _ => .ok []
  | .vstring s :: rest, i =>
    match convertAnySlice key rest (i + 1) with
    | .ok tail => .ok (s :: tail)
    | .error e => .error e
  | _ :: _, i => .error ("item at index " ++ toString i ++ " in " ++ key ++ " is not a string")

/-- extractStringArray from the source: a key absent from the map is an error;
a `[]any` value must be all strings; a `[]string` value is taken as is; a
present nil value yields the empty slice; anything else is an error. -/
def extractStringArray (data : List (String × GoValue)) (key : String) :
    Except String (List String) :=
  match lookupKey data key with
  | none => .error (key ++ " not found")
  | some val =>
    match val with
    | .varr xs => convertAnySlice key xs 0
    | .vstrarr xs => .ok xs
    | .vnil => .ok []
    | _ => .error (key ++ " is not a valid string array, []any, or nil")

structure FinishTestParams where
  verdict : String
  reasoning : String
  metCriteria : List String
  unmetCriteria : List String
  triggeredFailures : List String

/-- extractFinishTestParams from the source, taking the tool call's argument
bag. In Go an absent key indexes to nil and then fails the type assertion, so
absent and wrongly-typed keys produce the same error, as here. -/
def extractFinishTestParams (args : List (String × GoValue)) :
    Except String FinishTestParams :=
  match lookupKey args "verdict" with
  | some (.vstring verdict) =>
    match lookupKey args "reasoning" with
    | some (.vstring reasoning) =>
      match lookupKey args "details" with
      | some (.vmap details) =>
        match extractStringArray details "met_criteria" with
        | .error e => .error e
        | .ok met =>
          match extractStringArray details "unmet_criteria" with
          | .error e => .error e
          | .ok unmet =>
            match extractStringArray details "triggered_failures" with
            | .error e => .error e
            | .ok trig => .ok ⟨verdict, reasoning, met, unmet, trig⟩
      | _ => .error "details is not a map"
    | _ => .error "reasoning is not a string"
  | _ => .error "verdict is not a string"

/-! ## Testing-agent prompt construction

The system-message template from the source, with the four template fields
spliced in (template execution cannot fail for this fixed template). The JSON
escaping performed by Go's json.MarshalIndent on criteria strings is not
modelled character-for-character: no verified property inspects the rendered
prompt text beyond the message roles and list structure.
-/

/-- Go json.MarshalIndent of a []string with prefix "" and indent "  ". -/
def jsonMarshalIndentStrings : List String → String
  | [] => "[]"
  | x :: xs =>
    "[\n  \"" ++ x ++ "\"" ++
      (xs.foldl (fun acc y => acc ++ ",\n  \"" ++ y ++ "\"") "") ++ "\n]"

def testingAgentSystemMessage (description strategy successCriteriaJSON failureCriteriaJSON : String) : String :=
  "\n<role>\nYou are pretending to be a user, you are testing an AI Agent (shown as the user role) based on a scenario.\nApproach this naturally, as a human user would, with very short inputs, few words, all lowercase, imperative, not periods, like when they google or talk to chatgpt.\n</role>\n\n<goal>\nYour goal (assistant) is to interact with the Agent Under Test (user) as if you were a human user to see if it can complete the scenario successfully.\n</goal>\n\n<scenario>\n"
    ++ description ++
    "\n</scenario>\n\n<strategy>\n"
    ++ strategy ++
    "\n</strategy>\n\n<success_criteria>\n"
    ++ successCriteriaJSON ++
    "\n</success_criteria>\n\n<failure_criteria>\n"
    ++ failureCriteriaJSON ++
    "\n</failure_criteria>\n\n<execution_flow>\n1. Generate the first message to start the scenario\n2. After the Agent Under Test (user) responds, generate the next message to send to the Agent Under Test, keep repeating step 2 until the criteria match\n3. If the test should end, use the finish_test tool to determine if success or failure criteria have been met\n</execution_flow>\n\n<rules>\n1. Test should end immediately if a failure criteria is triggered\n2. Test should continue until all success criteria have been met\n3. DO NOT make any judgment calls that are not explicitly listed in the success or failure criteria, withhold judgement if necessary\n4. DO NOT carry over any requests yourself, YOU ARE NOT the assistant today, wait for the user to do it\n</rules>\n"

def testingAgentGreeting : String := "Hello, how can I help you today?"

def testingAgentFinishTestMessage : String :=
  "\nSystem:\n\n<finish_test>\nThis is the last message, conversation has reached the maximum number of turns, give your final verdict,\nif you don't have enough information to make a verdict, say inconclusive with max turns reached.\n</finish_test>"

/-- The message list GenerateNextMessage constructs before the role-swap loop:
the rendered system message, the synthetic assistant greeting, the caller's
conversation, and, when lastMessage, the finish_test cue as a user message. -/
def taConstructedMessages (description strategy : String)
    (successCriteria failureCriteria : List String)
    (conversation : List Message) (lastMessage : Bool) : List Message :=
  let messages : List Message :=
    [{ role := MessageRoleSystem
       content := testingAgentSystemMessage description strategy
         (jsonMarshalIndentStrings successCriteria)
         (jsonMarshalIndentStrings failureCriteria) },
     { role := MessageRoleAssistant, content := testingAgentGreeting }]
      ++ conversation
  if lastMessage then
    messages ++ [{ role := MessageRoleUser, content := testingAgentFinishTestMessage }]
  else
    messages

/-- The body of the role-swap loop in GenerateNextMessage, applied to the loop
variable: messages with a non-empty tool-call list are skipped, otherwise the
assistant and user roles are exchanged (any other role is untouched). -/
def swapMessageRole (m : Message) : Message :=
  if m.toolCalls.length > 0 then m
  else if m.role = MessageRoleAssistant then { m with role := MessageRoleUser }
  else if m.role = MessageRoleUser then { m with role := MessageRoleAssistant }
  else m

/-- The role-swap loop exactly as Go executes it. The source iterates with
`for _, message := range messages`, which binds `message` to a copy of each
slice element; the loop body assigns to that copy only, so the slice itself is
left unchanged. Each iteration computes the mutated copy and discards it. -/
def roleSwapLoop (messages : List Message) : List Message :=
  messages.map (fun message =>
    let _copyAfterBody := swapMessageRole message
    message)

/-- The role inversion the spec describes: every element actually replaced by
the swapped copy. Named after the spec, for comparison with roleSwapLoop. -/
def roleSwapSpec (messages : List Message) : List Message :=
  messages.map swapMessageRole

/-- The message list GenerateNextMessage hands to the completion backend. -/
def taOutgoingMessages (description strategy : String)
    (successCriteria failureCriteria : List String)
    (conversation : List Message) (lastMessage : Bool) : List Message :=
  roleSwapLoop
    (taConstructedMessages description strategy successCriteria failureCriteria
      conversation lastMessage)

/-! ## Completion-provider contract (llm.go) -/

structure ToolCallFunction where
  name : String
  arguments : List (String × GoValue)

/-- A tool call in a completion choice. `function` is a pointer in Go, hence
Option here; dereferencing it while nil is a runtime panic. -/
structure ToolCall where
  id : String := ""
  type : ToolType
  function : Option ToolCallFunction := none

structure LLMCompletionResponseChoiceMessage where
  content : String := ""
  toolCalls : List ToolCall := []

structure LLMCompletionResponseChoice where
  message : LLMCompletionResponseChoiceMessage

structure LLMCompletionResponse where
  choices : List LLMCompletionResponseChoice

/-- A completion backend, as the testing agent drives it: the outgoing message
list and the tool-choice directive determine the response (the temperature,
token budget, and the constant finish_test tool schema are not varied by the
testing agent and are elided from the seam). -/
abbrev LLMBackend := List Message → Option String → Except String LLMCompletionResponse

/-! ## GenerateNextMessage -/

/-- The Go return triple (*string, *Result, error) of GenerateNextMessage,
plus the nil-pointer-dereference panic (a nil Function on a tool call). -/
inductive GNMReturn where
  | panic
  | ret (nextMessage : Option String) (result : Option Result) (error : Option String)

/-- The verdict switch at the end of the finish_test branch (a Go switch on a
string value: compared against "success", then "failure", else default). -/
def finishTestVerdictResult (conversation : List Message) (p : FinishTestParams) : Result :=
  if p.verdict = "success" then
    NewSuccessPartialResult conversation p.reasoning p.metCriteria
  else if p.verdict = "failure" then
    NewFailurePartialResult conversation p.reasoning p.metCriteria p.unmetCriteria
      p.triggeredFailures
  else
    NewInconclusivePartialResult conversation p.reasoning p.metCriteria p.unmetCriteria
      p.triggeredFailures

/-- GenerateNextMessage from the source. firstMessage is accepted and unused,
as in Go (it only matters to callers). A first tool call whose name is not
finish_test falls through to the content check, as in the source. -/
def GenerateNextMessage (backend : LLMBackend) (description strategy : String)
    (successCriteria failureCriteria : List String) (conversation : List Message)
    (firstMessage lastMessage : Bool) : GNMReturn :=
  let _unusedFirstMessage := firstMessage
  let messages := taOutgoingMessages description strategy successCriteria
    failureCriteria conversation lastMessage
  let toolChoice := if lastMessage then some "required" else none
  match backend messages toolChoice with
  | .error e => .ret none none (some ("failed to generate llm completion: " ++ e))
  | .ok resp =>
    match resp.choices with
    | [] => .ret none none (some "no choices returned")
    | choice :: _ =>
      match choice.message.toolCalls with
      | toolCall :: _ =>
        if toolCall.type ≠ ToolTypeFunction then
          .ret none none (some "tool call is not a function")
        else
          match toolCall.function with
          | none => .panic
          | some fn =>
            if fn.name = "finish_test" then
              match extractFinishTestParams fn.arguments with
              | .error e =>
                .ret none none (some ("failed to extract finish_test parameters: " ++ e))
              | .ok p => .ret none (some (finishTestVerdictResult conversation p)) none
            else if choice.message.content = "" then
              .ret none none (some "no content returned in choice")
            else
              .ret (some choice.message.content) none none
      | [] =>
        if choice.message.content = "" then
          .ret none none (some "no content returned in choice")
        else
          .ret (some choice.message.content) none none

/-! ## Scenario engine (scenario.go)

The two collaborators are modelled as functions of the call index (the number
of calls made to that collaborator before this one) and the arguments visible
at the call site; any deterministic, possibly stateful Go collaborator induces
such a function over the engine's fixed call sequence. The testing agent's Go
return triple is represented by its engine-distinguishable cases: a non-nil
error, a non-nil result, a non-nil next message, or all three nil (which the
engine dereferences on the next loop iteration, a panic).
-/

inductive TAResponse where
  | err (e : String)
  | res (r : Result)
  | msg (m : String)
  | nilnil

abbrev TestingAgentFn := Nat → List Message → Bool → Bool → TAResponse

abbrev AgentFn := Nat → String → Except String (List Message)

inductive RunOutcome where
  | panic
  | ret (result : Option Result) (error : Option String)

/-- The Go literal &Result\x7bSuccess: false\x7d returned on engine error
paths: all other fields at their zero values. -/
def emptyFailResult : Result := { Success := false }

/-- The agent-reply normalization in the turn loop: drop a leading system
message, then (after that) a leading user message. -/
def stripAgentMessages (agentMessages : List Message) : List Message :=
  let afterSystem :=
    match agentMessages with
    | m :: rest => if m.role = MessageRoleSystem then rest else m :: rest
    | [] => []
  match afterSystem with
  | m :: rest => if m.role = MessageRoleUser then rest else m :: rest
  | [] => []

/-- The Result built when the loop exhausts maxTurns without a verdict. -/
def exhaustedResult (maxTurns : Int) (conversation : List Message) : Result :=
  { Success := false
    Conversation := conversation
    Reasoning := "The conversation did not end in a failure after " ++ toString maxTurns ++ " turns."
    MetCriteria := []
    UnmetCriteria := []
    TriggeredFailures := [] }

/-- The turn loop of Run. Go iterates `for iteration := range s.maxTurns`
(zero iterations when maxTurns is non-positive); `remaining` counts the
iterations left, so `remaining = 0` after the final one and
`lastIteration = (remaining == 1)` at its start, matching
`iteration == maxTurns-1`. `current` is the *string currentMessage pointer:
none dereferenced at the top of an iteration is a panic. -/
def runLoop (maxTurns : Int) (agent : AgentFn) (testingAgent : TestingAgentFn) :
    Nat → List Message → Option String → Nat → Nat → RunOutcome
  | 0, conversation, _, _, _ => .ret (some (exhaustedResult maxTurns conversation)) none
  | remaining + 1, conversation, current, taIdx, agentIdx =>
    match current with
    | none => .panic
    | some text =>
      let conversation1 := conversation ++ [{ role := MessageRoleUser, content := text }]
      match agent agentIdx text with
      | .error e => .ret (some emptyFailResult) (some ("failed to run agent: " ++ e))
      | .ok agentMessages =>
        if agentMessages.isEmpty then
          .ret (some emptyFailResult) (some "no messages returned from agent")
        else
          let conversation2 := conversation1 ++ stripAgentMessages agentMessages
          match testingAgent taIdx conversation2 false (remaining == 0) with
          | .err e =>
            .ret (some emptyFailResult) (some ("failed to generate next message: " ++ e))
          | .res r => .ret (some r) none
          | .msg m =>
            runLoop maxTurns agent testingAgent remaining conversation2 (some m)
              (taIdx + 1) (agentIdx + 1)
          | .nilnil =>
            runLoop maxTurns agent testingAgent remaining conversation2 none
              (taIdx + 1) (agentIdx + 1)

/-- Run from scenario.go. The agent may be unset (nil); s.conversation starts
empty. The opening testing-agent call uses firstMessage=true, lastMessage=false
and an empty conversation; a verdict from it is the protocol-violation path,
returning that verdict result together with a non-nil error (the Go error also
carries a %v rendering of the result, which this embedding elides). -/
def Run (maxTurns : Int) (agent : Option AgentFn) (testingAgent : TestingAgentFn) : RunOutcome :=
  match agent with
  | none => .ret (some emptyFailResult) (some "agent not set")
  | some agentFn =>
    match testingAgent 0 [] true false with
    | .err e => .ret (some emptyFailResult) (some ("failed to generate initial message: " ++ e))
    | .res r => .ret (some r) (some "initial message generated a result which is unexpected")
    | .msg m => runLoop maxTurns agentFn testingAgent maxTurns.toNat [] (some m) 1 1
    | .nilnil => runLoop maxTurns agentFn testingAgent maxTurns.toNat [] none 1 1

/-! ## Theorems -/

/-- Shared: the role-swap loop leaves the message list unchanged, because the
Go range variable is a copy of each element and the body writes only to it. -/
theorem roleSwapLoop_eq_id (messages : List Message) : roleSwapLoop messages = messages := by
  unfold roleSwapLoop
  induction messages with
  | nil => rfl
  | cons m rest ih => simp [ih]

/-- C1: the claim states that every tool-call-free message in the list sent to
the backend has its role swapped (user and assistant exchanged). The source's
swap loop mutates only the per-iteration copy of the Go range variable, so the
sent list keeps every original role. At the concrete failing input (a
conversation holding one tool-call-free user message, lastMessage = false),
the sent roles are system, assistant, user — unchanged from the constructed
transcript — while the claimed swap (roleSwapSpec) would make them system,
user, assistant. -/
theorem C1_role_swap_never_applied :
    taOutgoingMessages "d" "strat" [] [] [{ role := MessageRoleUser, content := "hi" }] false
        = taConstructedMessages "d" "strat" [] [] [{ role := MessageRoleUser, content := "hi" }] false
      ∧ (taOutgoingMessages "d" "strat" [] [] [{ role := MessageRoleUser, content := "hi" }] false).map
          Message.role = [MessageRoleSystem, MessageRoleAssistant, MessageRoleUser]
      ∧ (roleSwapSpec (taConstructedMessages "d" "strat" [] []
          [{ role := MessageRoleUser, content := "hi" }] false)).map Message.role
          = [MessageRoleSystem, MessageRoleUser, MessageRoleAssistant] := by
  refine ⟨roleSwapLoop_eq_id _, ?_, ?_⟩
  · rfl
  · rfl

/-- C2: the verdict-to-Result mapping is total: verdict "success" yields a
Success=true Result carrying the met criteria; "failure" yields the
failure-shaped Success=false Result; every other verdict string yields a
Result structurally identical to the failure shape. -/
theorem C2_verdict_mapping_total (c : List Message) (r : String)
    (met unmet trig : List String) (v : String) :
    (v = "success" →
        finishTestVerdictResult c ⟨v, r, met, unmet, trig⟩ =
          { Success := true, Conversation := c, Reasoning := r, MetCriteria := met })
      ∧ (v = "failure" →
        finishTestVerdictResult c ⟨v, r, met, unmet, trig⟩ =
          { Success := false, Conversation := c, Reasoning := r, MetCriteria := met,
            UnmetCriteria := unmet, TriggeredFailures := trig })
      ∧ (v ≠ "success" → v ≠ "failure" →
        finishTestVerdictResult c ⟨v, r, met, unmet, trig⟩ =
          NewFailurePartialResult c r met unmet trig) := by
  refine ⟨?_, ?_, ?_⟩
  · intro h
    subst h
    rfl
  · intro h
    subst h
    rfl
  · intro h1 h2
    unfold finishTestVerdictResult
    simp only [if_neg h1, if_neg h2]
    rfl

/-- C2 witness: the mapping evaluated at the verdict "inconclusive". -/
theorem C2_verdict_mapping_total_witness :
    finishTestVerdictResult [] ⟨"inconclusive", "r", ["m"], ["u"], ["t"]⟩ =
      NewFailurePartialResult [] "r" ["m"] ["u"] ["t"] :=
  (C2_verdict_mapping_total [] "r" ["m"] ["u"] ["t"] "inconclusive").2.2
    (by decide) (by decide)

/-- Shared: the []any branch succeeds on an all-string slice. -/
theorem convertAnySlice_all_strings (key : String) :
    ∀ (ss : List String) (i : Nat),
      convertAnySlice key (ss.map GoValue.vstring) i = Except.ok ss := by
  intro ss
  induction ss with
  | nil => intro i; rfl
  | cons s rest ih =>
    intro i
    simp [convertAnySlice, ih (i + 1)]

/-- Shared: the []any branch fails on a slice that is not all strings. -/
theorem convertAnySlice_not_all_strings (key : String) :
    ∀ xs : List GoValue, (¬ ∃ ss : List String, xs = ss.map GoValue.vstring) →
      ∀ i : Nat, ∃ e, convertAnySlice key xs i = Except.error e := by
  intro xs
  induction xs with
  | nil =>
    intro h
    exact absurd ⟨[], rfl⟩ h
  | cons x rest ih =>
    intro h i
    cases x with
    | vstring s =>
      have hrest : ¬ ∃ ss : List String, rest = ss.map GoValue.vstring := by
        rintro ⟨ss, hss⟩
        exact h ⟨s :: ss, by simp [hss]⟩
      obtain ⟨e, he⟩ := ih hrest (i + 1)
      exact ⟨e, by simp [convertAnySlice, he]⟩
    | vint n => exact ⟨_, rfl⟩
    | vbool b => exact ⟨_, rfl⟩
    | vnil => exact ⟨_, rfl⟩
    | varr ys => exact ⟨_, rfl⟩
    | vstrarr ys => exact ⟨_, rfl⟩
    | vmap es => exact ⟨_, rfl⟩

/-- C3 counterexample: the claim says a details map from which a criteria key
is entirely absent yields an empty array, not an error; the source returns the
error "met_criteria not found" on a map without that key. -/
theorem C3_absent_key_is_error :
    extractStringArray [("unmet_criteria", GoValue.vstrarr [])] "met_criteria"
        = Except.error "met_criteria not found"
      ∧ extractStringArray [("unmet_criteria", GoValue.vstrarr [])] "met_criteria"
        ≠ Except.ok ([] : List String) := by
  refine ⟨rfl, ?_⟩
  intro h
  exact Except.noConfusion h

/-- C3 amended: each criteria array is extracted accepting a heterogeneous
sequence whose elements are all strings, or a homogeneous string sequence, or
a key present with nil value treated as empty; a key entirely absent from the
map is a parse error (key not found), and any other shape is a parse error. -/
theorem C3_amended_criteria_extraction (data : List (String × GoValue)) (key : String) :
    (lookupKey data key = none →
        extractStringArray data key = Except.error (key ++ " not found"))
      ∧ (lookupKey data key = some GoValue.vnil →
        extractStringArray data key = Except.ok [])
      ∧ (∀ xs, lookupKey data key = some (GoValue.vstrarr xs) →
        extractStringArray data key = Except.ok xs)
      ∧ (∀ ss, lookupKey data key = some (GoValue.varr (ss.map GoValue.vstring)) →
        extractStringArray data key = Except.ok ss)
      ∧ (∀ xs, lookupKey data key = some (GoValue.varr xs) →
        (¬ ∃ ss : List String, xs = ss.map GoValue.vstring) →
        ∃ e, extractStringArray data key = Except.error e)
      ∧ (∀ s, lookupKey data key = some (GoValue.vstring s) →
        extractStringArray data key =
          Except.error (key ++ " is not a valid string array, []any, or nil"))
      ∧ (∀ n, lookupKey data key = some (GoValue.vint n) →
        extractStringArray data key =
          Except.error (key ++ " is not a valid string array, []any, or nil"))
      ∧ (∀ b, lookupKey data key = some (GoValue.vbool b) →
        extractStringArray data key =
          Except.error (key ++ " is not a valid string array, []any, or nil"))
      ∧ (∀ es, lookupKey data key = some (GoValue.vmap es) →
        extractStringArray data key =
          Except.error (key ++ " is not a valid string array, []any, or nil")) := by
  unfold extractStringArray
  refine ⟨?_, ?_, ?_, ?_, ?_, ?_, ?_, ?_, ?_⟩
  · intro h
    rw [h]
  · intro h
    rw [h]
  · intro xs h
    rw [h]
  · intro ss h
    rw [h]
    exact convertAnySlice_all_strings key ss 0
  · intro xs h hbad
    rw [h]
    exact convertAnySlice_not_all_strings key xs hbad 0
  · intro s h
    rw [h]
  · intro n h
    rw [h]
  · intro b h
    rw [h]
  · intro es h
    rw [h]

/-- C3 witness: a present-but-nil value yields the empty array, and an
all-string heterogeneous slice is accepted. -/
theorem C3_amended_criteria_extraction_witness :
    extractStringArray [("met_criteria", GoValue.vnil)] "met_criteria" = Except.ok []
      ∧ extractStringArray [("triggered_failures",
          GoValue.varr [GoValue.vstring "a", GoValue.vstring "b"])] "triggered_failures"
        = Except.ok ["a", "b"] :=
  ⟨(C3_amended_criteria_extraction [("met_criteria", GoValue.vnil)] "met_criteria").2.1 rfl,
   (C3_amended_criteria_extraction [("triggered_failures",
      GoValue.varr [GoValue.vstring "a", GoValue.vstring "b"])]
      "triggered_failures").2.2.2.1 ["a", "b"] rfl⟩

/-- Shared: every error-carrying return of the turn loop carries the literal
Success=false empty Result (the loop's non-error returns carry no error). -/
theorem runLoop_error_result (maxTurns : Int) (agent : AgentFn) (ta : TestingAgentFn) :
    ∀ (remaining : Nat) (conversation : List Message) (current : Option String)
      (taIdx agentIdx : Nat) (r : Option Result) (e : String),
      runLoop maxTurns agent ta remaining conversation current taIdx agentIdx
          = RunOutcome.ret r (some e) →
      r = some emptyFailResult := by
  intro remaining
  induction remaining with
  | zero =>
    intro conversation current taIdx agentIdx r e h
    simp only [runLoop] at h
    exact absurd (congrArg (fun o => match o with
      | RunOutcome.ret _ err => err
      | RunOutcome.panic => none) h) (by simp)
  | succ k ih =>
    intro conversation current taIdx agentIdx r e h
    simp only [runLoop] at h
    match current with
    | none => exact absurd h (by simp)
    | some text =>
      simp only at h
      cases hagent : agent agentIdx text with
      | error ae =>
        rw [hagent] at h
        simp only at h
        cases h
        rfl
      | ok agentMessages =>
        rw [hagent] at h
        simp only at h
        by_cases hemp : agentMessages.isEmpty
        · rw [if_pos hemp] at h
          cases h
          rfl
        · rw [if_neg hemp] at h
          cases hta : ta taIdx ((conversation ++
              [{ role := MessageRoleUser, content := text }]) ++
              stripAgentMessages agentMessages) false (k == 0) with
          | err te =>
            rw [hta] at h
            cases h
            rfl
          | res tr =>
            rw [hta] at h
            cases h
          | msg tm =>
            rw [hta] at h
            exact ih _ _ _ _ _ _ h
          | nilnil =>
            rw [hta] at h
            exact ih _ _ _ _ _ _ h

/-- C4 counterexample: a testing agent that yields a Success=true verdict on
the opening call makes Run return a non-nil error together with that verdict
Result, whose Success field is true — refuting the claim that every non-nil
error comes with a Success=false Result. -/
theorem C4_error_with_success_true :
    Run 10 (some (fun _ _ => Except.ok []))
        (fun _ _ _ _ => TAResponse.res { Success := true, Reasoning := "done" })
      = RunOutcome.ret (some { Success := true, Reasoning := "done" })
          (some "initial message generated a result which is unexpected")
      ∧ ({ Success := true, Reasoning := "done" } : Result).Success = true := by
  exact ⟨rfl, rfl⟩

/-- C4 amended: whenever Run returns a non-nil error, the paired Result is
non-nil; and on every error path except the opening-call protocol violation
(the testing agent yielding a verdict on the first call, where the verdict
Result itself is returned) that Result has Success=false. -/
theorem C4_amended_error_paths (maxTurns : Int) (agent : Option AgentFn)
    (ta : TestingAgentFn) (r : Option Result) (e : String)
    (h : Run maxTurns agent ta = RunOutcome.ret r (some e)) :
    (∃ r0, r = some r0)
      ∧ ((∀ x, ta 0 [] true false ≠ TAResponse.res x) →
        ∃ r0, r = some r0 ∧ r0.Success = false) := by
  unfold Run at h
  match agent with
  | none =>
    simp only at h
    cases h
    exact ⟨⟨emptyFailResult, rfl⟩, fun _ => ⟨emptyFailResult, rfl, rfl⟩⟩
  | some agentFn =>
    simp only at h
    cases hta : ta 0 [] true false with
    | err te =>
      rw [hta] at h
      cases h
      exact ⟨⟨emptyFailResult, rfl⟩, fun _ => ⟨emptyFailResult, rfl, rfl⟩⟩
    | res tr =>
      rw [hta] at h
      cases h
      exact ⟨⟨tr, rfl⟩, fun hno => absurd rfl (hno tr)⟩
    | msg tm =>
      rw [hta] at h
      have hr := runLoop_error_result maxTurns agentFn ta _ _ _ _ _ _ _ h
      exact ⟨⟨emptyFailResult, hr⟩, fun _ => ⟨emptyFailResult, hr, rfl⟩⟩
    | nilnil =>
      rw [hta] at h
      have hr := runLoop_error_result maxTurns agentFn ta _ _ _ _ _ _ _ h
      exact ⟨⟨emptyFailResult, hr⟩, fun _ => ⟨emptyFailResult, hr, rfl⟩⟩

/-- C4 witness: the amended theorem applied to the agent-not-set error path. -/
theorem C4_amended_error_paths_witness :
    (∃ r0, (some emptyFailResult : Option Result) = some r0)
      ∧ ((∀ x, (fun (_ : Nat) (_ : List Message) (_ : Bool) (_ : Bool) => TAResponse.nilnil)
            0 [] true false ≠ TAResponse.res x) →
        ∃ r0, (some emptyFailResult : Option Result) = some r0 ∧ r0.Success = false) :=
  C4_amended_error_paths 5 none
    (fun _ _ _ _ => TAResponse.nilnil) (some emptyFailResult) "agent not set" rfl

/-- C8: with a non-positive maxTurns, an agent that is set, and an opening
testing-agent call that returns a message, the turn loop executes zero times:
for every agent function the outcome is the same exhausted-branch Result —
Success=false, empty conversation and criteria lists, nil error, and the
reasoning rendered with the configured non-positive value. -/
theorem C8_nonpositive_max_turns (maxTurns : Int) (hmt : maxTurns ≤ 0)
    (ta : TestingAgentFn) (s : String) (hta : ta 0 [] true false = TAResponse.msg s) :
    ∀ agent : AgentFn,
      Run maxTurns (some agent) ta =
        RunOutcome.ret (some
          { Success := false
            Conversation := []
            Reasoning := "The conversation did not end in a failure after "
              ++ toString maxTurns ++ " turns."
            MetCriteria := []
            UnmetCriteria := []
            TriggeredFailures := [] }) none := by
  intro agent
  unfold Run
  rw [hta]
  have h0 : maxTurns.toNat = 0 := Int.toNat_of_nonpos hmt
  rw [h0]
  rfl

/-- C8 witness: maxTurns = -3, rendered as "after -3 turns.". -/
theorem C8_nonpositive_max_turns_witness :
    Run (-3) (some (fun _ _ => Except.ok [])) (fun _ _ _ _ => TAResponse.msg "hello") =
      RunOutcome.ret (some
        { Success := false
          Conversation := []
          Reasoning := "The conversation did not end in a failure after -3 turns."
          MetCriteria := []
          UnmetCriteria := []
          TriggeredFailures := [] }) none :=
  C8_nonpositive_max_turns (-3) (by decide)
    (fun _ _ _ _ => TAResponse.msg "hello") "hello" rfl (fun _ _ => Except.ok [])

/-- The transcript shape of a verdict-free run: per turn, one user message
with that turn's outgoing text followed by the turn's agent reply. -/
def turnMessages : List (String × Message) → List Message
  | [] => []
  | p :: rest => { role := MessageRoleUser, content := p.1 } :: p.2 :: turnMessages rest

theorem turnMessages_length (pairs : List (String × Message)) :
    (turnMessages pairs).length = 2 * pairs.length := by
  induction pairs with
  | nil => rfl
  | cons p rest ih =>
    simp [turnMessages, ih]
    ring

/-- Shared: when the testing agent always answers with a next message and the
agent always answers with a single assistant-role message, the loop runs all
remaining iterations and lands in the exhausted branch, appending one user
message and one agent reply per turn. -/
theorem runLoop_exhausts_on_messages (maxTurns : Int) (agent : AgentFn)
    (ta : TestingAgentFn)
    (hta : ∀ i conv fm lm, ∃ s, ta i conv fm lm = TAResponse.msg s)
    (hagent : ∀ i m, ∃ reply : Message,
      agent i m = Except.ok [reply] ∧ reply.role = MessageRoleAssistant) :
    ∀ (remaining : Nat) (conversation : List Message) (cur : String)
      (taIdx agentIdx : Nat),
      ∃ pairs : List (String × Message),
        runLoop maxTurns agent ta remaining conversation (some cur) taIdx agentIdx
            = RunOutcome.ret (some (exhaustedResult maxTurns
                (conversation ++ turnMessages pairs))) none
          ∧ pairs.length = remaining
          ∧ ∀ p ∈ pairs, p.2.role = MessageRoleAssistant := by
  intro remaining
  induction remaining with
  | zero =>
    intro conversation cur taIdx agentIdx
    exact ⟨[], by simp [runLoop, turnMessages], rfl, by simp⟩
  | succ k ih =>
    intro conversation cur taIdx agentIdx
    obtain ⟨reply, hag, hrole⟩ := hagent agentIdx cur
    have hstrip : stripAgentMessages [reply] = [reply] := by
      simp [stripAgentMessages, hrole, MessageRoleAssistant, MessageRoleSystem,
        MessageRoleUser]
    obtain ⟨s, hs⟩ := hta taIdx
      ((conversation ++ [{ role := MessageRoleUser, content := cur }]) ++ [reply])
      false (k == 0)
    obtain ⟨pairs, hloop, hlen, hroles⟩ := ih
      ((conversation ++ [{ role := MessageRoleUser, content := cur }]) ++ [reply])
      s (taIdx + 1) (agentIdx + 1)
    refine ⟨(cur, reply) :: pairs, ?_, by simp [hlen], ?_⟩
    · simp only [runLoop]
      rw [hag]
      simp only [List.isEmpty_cons, hstrip]
      rw [hs]
      dsimp only
      rw [hloop]
      simp [turnMessages]
    · intro p hp
      cases hp with
      | head => exact hrole
      | tail _ hmem => exact hroles p hmem

/-- C5: for maxTurns = N at least 1, a testing agent that always returns a
next-message text and an agent that returns exactly one assistant-role message
per turn make Run finish with nil error and the exhausted Result: Success
false, a conversation of exactly 2N messages — per turn one user message then
that turn's assistant-role reply, in turn order — the reasoning string
rendered with N, and all three criteria lists empty. -/
theorem C5_turn_exhaustion (N : Int) (_hN : 1 ≤ N) (agent : AgentFn)
    (ta : TestingAgentFn)
    (hta : ∀ i conv fm lm, ∃ s, ta i conv fm lm = TAResponse.msg s)
    (hagent : ∀ i m, ∃ reply : Message,
      agent i m = Except.ok [reply] ∧ reply.role = MessageRoleAssistant) :
    ∃ pairs : List (String × Message),
      Run N (some agent) ta = RunOutcome.ret (some
        { Success := false
          Conversation := turnMessages pairs
          Reasoning := "The conversation did not end in a failure after "
            ++ toString N ++ " turns."
          MetCriteria := []
          UnmetCriteria := []
          TriggeredFailures := [] }) none
        ∧ pairs.length = N.toNat
        ∧ (turnMessages pairs).length = 2 * N.toNat
        ∧ ∀ p ∈ pairs, p.2.role = MessageRoleAssistant := by
  obtain ⟨s0, hs0⟩ := hta 0 [] true false
  obtain ⟨pairs, hloop, hlen, hroles⟩ :=
    runLoop_exhausts_on_messages N agent ta hta hagent N.toNat [] s0 1 1
  refine ⟨pairs, ?_, hlen, ?_, hroles⟩
  · unfold Run
    rw [hs0]
    dsimp only
    rw [hloop]
    simp [exhaustedResult]
  · rw [turnMessages_length, hlen]

/-- C5 witness: N = 2 with a constant testing agent and an echoing agent. -/
theorem C5_turn_exhaustion_witness :
    ∃ pairs : List (String × Message),
      Run 2 (some (fun _ m => Except.ok [{ role := MessageRoleAssistant, content := m }]))
          (fun _ _ _ _ => TAResponse.msg "go") = RunOutcome.ret (some
        { Success := false
          Conversation := turnMessages pairs
          Reasoning := "The conversation did not end in a failure after "
            ++ toString (2 : Int) ++ " turns."
          MetCriteria := []
          UnmetCriteria := []
          TriggeredFailures := [] }) none
        ∧ pairs.length = (2 : Int).toNat
        ∧ (turnMessages pairs).length = 2 * (2 : Int).toNat
        ∧ ∀ p ∈ pairs, p.2.role = MessageRoleAssistant :=
  C5_turn_exhaustion 2 (by decide)
    (fun _ m => Except.ok [{ role := MessageRoleAssistant, content := m }])
    (fun _ _ _ _ => TAResponse.msg "go")
    (fun _ _ _ _ => ⟨"go", rfl⟩)
    (fun _ m => ⟨{ role := MessageRoleAssistant, content := m }, rfl, rfl⟩)

/-- C6: per turn the agent reply is normalized before being recorded — a
leading system message is dropped, then (after that) a leading user message is
dropped, and the remaining messages are exactly a suffix of the reply, kept
unchanged and in order (part one, the drop characterization); and the
conversation the engine records and hands to the testing agent is the prior
conversation, the turn's user message, then exactly that normalized reply
(part two: a verdict rendered against that recorded conversation is the loop's
outcome). -/
theorem C6_reply_normalization :
    (∀ msgs : List Message,
      stripAgentMessages msgs =
        let d1 := if msgs.head?.map Message.role = some MessageRoleSystem then 1 else 0
        let d2 := if (msgs.drop d1).head?.map Message.role = some MessageRoleUser then 1 else 0
        msgs.drop (d1 + d2))
      ∧ (∀ (maxTurns : Int) (agent : AgentFn) (ta : TestingAgentFn) (k : Nat)
          (conv : List Message) (cur : String) (taIdx agentIdx : Nat)
          (msgs : List Message) (res : Result),
        agent agentIdx cur = Except.ok msgs → msgs ≠ [] →
        ta taIdx (conv ++ { role := MessageRoleUser, content := cur }
            :: stripAgentMessages msgs) false (k == 0) = TAResponse.res res →
        runLoop maxTurns agent ta (k + 1) conv (some cur) taIdx agentIdx
          = RunOutcome.ret (some res) none) := by
  constructor
  · intro msgs
    cases msgs with
    | nil => rfl
    | cons m rest =>
      by_cases h1 : m.role = "system"
      · cases rest with
        | nil =>
          simp [stripAgentMessages, MessageRoleSystem, MessageRoleUser, h1]
        | cons m2 rest2 =>
          by_cases h2 : m2.role = "user"
          · simp [stripAgentMessages, MessageRoleSystem, MessageRoleUser, h1, h2]
          · simp [stripAgentMessages, MessageRoleSystem, MessageRoleUser, h1, h2]
      · by_cases h2 : m.role = "user"
        · simp [stripAgentMessages, MessageRoleSystem, MessageRoleUser, h1, h2]
        · simp [stripAgentMessages, MessageRoleSystem, MessageRoleUser, h1, h2]
  · intro maxTurns agent ta k conv cur taIdx agentIdx msgs res hag hne hta
    have hemp : msgs.isEmpty = false := by
      cases msgs with
      | nil => exact absurd rfl hne
      | cons a as => rfl
    simp [runLoop, hag, hemp, hta]

/-- C6 witness: one loop iteration with an agent replying a single assistant
message and a testing agent that renders an immediate verdict. -/
theorem C6_reply_normalization_witness :
    runLoop 1 (fun _ _ => Except.ok [{ role := MessageRoleAssistant, content := "a" }])
        (fun _ _ _ _ => TAResponse.res { Success := true }) 1 [] (some "hi") 1 1
      = RunOutcome.ret (some { Success := true }) none :=
  C6_reply_normalization.2 1
    (fun _ _ => Except.ok [{ role := MessageRoleAssistant, content := "a" }])
    (fun _ _ _ _ => TAResponse.res { Success := true }) 0 [] "hi" 1 1
    [{ role := MessageRoleAssistant, content := "a" }] { Success := true }
    rfl (by simp) rfl

/-- C7: whenever GenerateNextMessage returns with nil error, exactly one of
the next-message text and the verdict Result is non-nil. -/
theorem C7_exactly_one_on_success (backend : LLMBackend) (d strat : String)
    (sc fc : List String) (conv : List Message) (fm lm : Bool)
    (m : Option String) (r : Option Result)
    (h : GenerateNextMessage backend d strat sc fc conv fm lm
      = GNMReturn.ret m r none) :
    (m.isSome = true ∧ r = none) ∨ (m = none ∧ r.isSome = true) := by
  unfold GenerateNextMessage at h
  dsimp only at h
  cases hb : backend (taOutgoingMessages d strat sc fc conv lm)
      (if lm then some "required" else none) with
  | error e =>
    rw [hb] at h
    dsimp only at h
    injection h with h1 h2 h3
    exact Option.noConfusion h3
  | ok resp =>
    rw [hb] at h
    dsimp only at h
    cases hc : resp.choices with
    | nil =>
      rw [hc] at h
      dsimp only at h
      injection h with h1 h2 h3
      exact Option.noConfusion h3
    | cons choice restChoices =>
      rw [hc] at h
      dsimp only at h
      cases htc : choice.message.toolCalls with
      | nil =>
        rw [htc] at h
        dsimp only at h
        by_cases hcont : choice.message.content = ""
        · rw [if_pos hcont] at h
          injection h with h1 h2 h3
          exact Option.noConfusion h3
        · rw [if_neg hcont] at h
          injection h with h1 h2 h3
          exact Or.inl ⟨by rw [← h1]; rfl, h2.symm⟩
      | cons tc restTc =>
        rw [htc] at h
        dsimp only at h
        by_cases htype : tc.type ≠ ToolTypeFunction
        · rw [if_pos htype] at h
          injection h with h1 h2 h3
          exact Option.noConfusion h3
        · rw [if_neg htype] at h
          cases hfn : tc.function with
          | none =>
            rw [hfn] at h
            dsimp only at h
            exact GNMReturn.noConfusion h
          | some fn =>
            rw [hfn] at h
            dsimp only at h
            by_cases hname : fn.name = "finish_test"
            · rw [if_pos hname] at h
              cases hep : extractFinishTestParams fn.arguments with
              | error e =>
                rw [hep] at h
                dsimp only at h
                injection h with h1 h2 h3
                exact Option.noConfusion h3
              | ok p =>
                rw [hep] at h
                dsimp only at h
                injection h with h1 h2 h3
                exact Or.inr ⟨h1.symm, by rw [← h2]; rfl⟩
            · rw [if_neg hname] at h
              by_cases hcont : choice.message.content = ""
              · rw [if_pos hcont] at h
                injection h with h1 h2 h3
                exact Option.noConfusion h3
              · rw [if_neg hcont] at h
                injection h with h1 h2 h3
                exact Or.inl ⟨by rw [← h1]; rfl, h2.symm⟩

/-- C7 witness: a backend answering plain text, and one answering with a
finish_test verdict call. -/
theorem C7_exactly_one_on_success_witness :
    ((some "hello" : Option String).isSome = true ∧ (none : Option Result) = none)
      ∨ ((some "hello" : Option String) = none ∧ (none : Option Result).isSome = true) :=
  C7_exactly_one_on_success
    (fun _ _ => Except.ok { choices := [{ message := { content := "hello" } }] })
    "d" "s" [] [] [] true false (some "hello") none rfl

/-- Shared: every verdict Result is built over the conversation argument. -/
theorem finishTestVerdictResult_conversation (c : List Message) (p : FinishTestParams) :
    (finishTestVerdictResult c p).Conversation = c := by
  unfold finishTestVerdictResult NewSuccessPartialResult NewFailurePartialResult
    NewInconclusivePartialResult
  split_ifs <;> rfl

/-- C9: whenever GenerateNextMessage returns a verdict Result, that Result's
conversation is exactly the conversation argument passed in — the synthetic
system prompt, the prepended assistant greeting, and the finish_test cue never
appear in a returned Result's conversation. -/
theorem C9_result_conversation_is_argument (backend : LLMBackend) (d strat : String)
    (sc fc : List String) (conv : List Message) (fm lm : Bool)
    (m : Option String) (res : Result) (e : Option String)
    (h : GenerateNextMessage backend d strat sc fc conv fm lm
      = GNMReturn.ret m (some res) e) :
    res.Conversation = conv := by
  unfold GenerateNextMessage at h
  dsimp only at h
  cases hb : backend (taOutgoingMessages d strat sc fc conv lm)
      (if lm then some "required" else none) with
  | error err =>
    rw [hb] at h
    dsimp only at h
    injection h with h1 h2 h3
    exact Option.noConfusion h2
  | ok resp =>
    rw [hb] at h
    dsimp only at h
    cases hc : resp.choices with
    | nil =>
      rw [hc] at h
      dsimp only at h
      injection h with h1 h2 h3
      exact Option.noConfusion h2
    | cons choice restChoices =>
      rw [hc] at h
      dsimp only at h
      cases htc : choice.message.toolCalls with
      | nil =>
        rw [htc] at h
        dsimp only at h
        by_cases hcont : choice.message.content = ""
        · rw [if_pos hcont] at h
          injection h with h1 h2 h3
          exact Option.noConfusion h2
        · rw [if_neg hcont] at h
          injection h with h1 h2 h3
          exact Option.noConfusion h2
      | cons tc restTc =>
        rw [htc] at h
        dsimp only at h
        by_cases htype : tc.type ≠ ToolTypeFunction
        · rw [if_pos htype] at h
          injection h with h1 h2 h3
          exact Option.noConfusion h2
        · rw [if_neg htype] at h
          cases hfn : tc.function with
          | none =>
            rw [hfn] at h
            dsimp only at h
            exact GNMReturn.noConfusion h
          | some fn =>
            rw [hfn] at h
            dsimp only at h
            by_cases hname : fn.name = "finish_test"
            · rw [if_pos hname] at h
              cases hep : extractFinishTestParams fn.arguments with
              | error err =>
                rw [hep] at h
                dsimp only at h
                injection h with h1 h2 h3
                exact Option.noConfusion h2
              | ok p =>
                rw [hep] at h
                dsimp only at h
                injection h with h1 h2 h3
                have hres : finishTestVerdictResult conv p = res := Option.some.inj h2
                rw [← hres]
                exact finishTestVerdictResult_conversation conv p
            · rw [if_neg hname] at h
              by_cases hcont : choice.message.content = ""
              · rw [if_pos hcont] at h
                injection h with h1 h2 h3
                exact Option.noConfusion h2
              · rw [if_neg hcont] at h
                injection h with h1 h2 h3
                exact Option.noConfusion h2

/-- C9 witness: a finish_test success verdict over a one-message conversation. -/
theorem C9_result_conversation_is_argument_witness :
    (NewSuccessPartialResult [{ role := MessageRoleUser, content := "hi" }] "ok" []).Conversation
      = [{ role := MessageRoleUser, content := "hi" }] :=
  C9_result_conversation_is_argument
    (fun _ _ => Except.ok { choices := [{ message := { toolCalls :=
      [{ type := ToolTypeFunction, function := some { name := "finish_test", arguments :=
        [("verdict", GoValue.vstring "success"), ("reasoning", GoValue.vstring "ok"),
         ("details", GoValue.vmap
           [("met_criteria", GoValue.vnil), ("unmet_criteria", GoValue.vnil),
            ("triggered_failures", GoValue.vnil)])] } }] } }] })
    "d" "s" [] [] [{ role := MessageRoleUser, content := "hi" }] false true
    none (NewSuccessPartialResult [{ role := MessageRoleUser, content := "hi" }] "ok" [])
    none rfl

/-- C10: a first tool call of function type whose name is not finish_test
produces neither a verdict nor a parse error: the choice's text content is
returned as the next message when non-empty, and the error is exactly
"no content returned in choice" when the content is empty. -/
theorem C10_non_finish_function_tool_call (backend : LLMBackend) (d strat : String)
    (sc fc : List String) (conv : List Message) (fm lm : Bool)
    (resp : LLMCompletionResponse) (choice : LLMCompletionResponseChoice)
    (restChoices : List LLMCompletionResponseChoice)
    (tc : ToolCall) (restTc : List ToolCall) (fn : ToolCallFunction)
    (hb : backend (taOutgoingMessages d strat sc fc conv lm)
      (if lm then some "required" else none) = Except.ok resp)
    (hc : resp.choices = choice :: restChoices)
    (ht : choice.message.toolCalls = tc :: restTc)
    (htype : tc.type = ToolTypeFunction)
    (hfn : tc.function = some fn)
    (hname : fn.name ≠ "finish_test") :
    (choice.message.content ≠ "" →
      GenerateNextMessage backend d strat sc fc conv fm lm
        = GNMReturn.ret (some choice.message.content) none none)
      ∧ (choice.message.content = "" →
      GenerateNextMessage backend d strat sc fc conv fm lm
        = GNMReturn.ret none none (some "no content returned in choice")) := by
  have hmain : ∀ g : GNMReturn,
      (if choice.message.content = "" then
        GNMReturn.ret none none (some "no content returned in choice")
      else GNMReturn.ret (some choice.message.content) none none) = g →
      GenerateNextMessage backend d strat sc fc conv fm lm = g := by
    intro g hg
    unfold GenerateNextMessage
    dsimp only
    rw [hb]
    dsimp only
    rw [hc]
    dsimp only
    rw [ht]
    dsimp only
    rw [if_neg (fun hne => hne htype)]
    rw [hfn]
    dsimp only
    rw [if_neg hname]
    exact hg
  constructor
  · intro hcont
    exact hmain _ (if_neg hcont)
  · intro hcont
    exact hmain _ (if_pos hcont)

/-- C10 witness: a function tool call named other_tool with non-empty text. -/
theorem C10_non_finish_function_tool_call_witness :
    GenerateNextMessage
        (fun _ _ => Except.ok { choices := [{ message := { content := "hey, next", toolCalls :=
          [{ type := ToolTypeFunction, function := some { name := "other_tool", arguments := [] } }] } }] })
        "d" "s" [] [] [] false false
      = GNMReturn.ret (some "hey, next") none none :=
  (C10_non_finish_function_tool_call
    (fun _ _ => Except.ok { choices := [{ message := { content := "hey, next", toolCalls :=
      [{ type := ToolTypeFunction, function := some { name := "other_tool", arguments := [] } }] } }] })
    "d" "s" [] [] [] false false
    { choices := [{ message := { content := "hey, next", toolCalls :=
      [{ type := ToolTypeFunction, function := some { name := "other_tool", arguments := [] } }] } }] }
    { message := { content := "hey, next", toolCalls :=
      [{ type := ToolTypeFunction, function := some { name := "other_tool", arguments := [] } }] } }
    [] { type := ToolTypeFunction, function := some { name := "other_tool", arguments := [] } }
    [] { name := "other_tool", arguments := [] }
    rfl rfl rfl rfl rfl (by decide)).1 (by decide)

end ScenarioGo
